import Mathlib

/-!
Shallow embedding of `src/src/render/x.py` (`render_to_img`): a utility that
renders HTML/SVG/image content to a raster image by writing the input into a
scoped temporary directory, invoking a headless Chrome to take a screenshot,
and invoking ImageMagick `convert` to trim/flatten/convert the screenshot.

External subprocess invocations are modelled by an oracle `Env.run` mapping a
command line to either a tool error (launch failure or non-zero exit, which
`k3proc.command_ex` surfaces as a raised exception) or captured stdout bytes.
Besides its result, the embedded function produces the ordered trace of
observable effects: temp-directory creation/removal, the file write, and the
two tool invocations.  Python's `with tempfile.TemporaryDirectory()` is
embedded as `withTempDir`, which brackets the body's trace with
creation/removal events on every path, mirroring the context-manager
guarantee of cleanup on both normal and exceptional exit.
-/

namespace XpMd2Html

/-- Tool-invocation failure: the external executable could not be launched, or
exited with a non-zero status code. -/
inductive ToolErr where
  | launchFailure
  | nonZeroExit (code : Nat)
deriving DecidableEq

/-- Errors the embedded `render_to_img` can surface: a Python `TypeError`
(string concatenated with bytes), or a propagated tool failure. -/
inductive RErr where
  | typeError
  | tool (e : ToolErr)
deriving DecidableEq

/-- A Python value that is either `str` or `bytes`, as accepted for `input`. -/
inductive PyVal where
  | str (s : String)
  | bytes (b : List Nat)
deriving DecidableEq

/-- A subprocess command line: executable, argument list, optional working
directory (`cwd=` keyword of `k3proc.command_ex`). -/
structure Cmd where
  exe : String
  args : List String
  cwd : Option String
deriving DecidableEq

/-- Observable effects of one `render_to_img` call, in order. -/
inductive Event where
  | tmpCreate (dir : String)
  | fileWrite (path mode : String) (content : PyVal)
  | run (c : Cmd)
  | tmpRemove (dir : String)
deriving DecidableEq

/-- The environment of a call: the (fresh) temporary directory path that
`tempfile.TemporaryDirectory()` yields, and the outcome of each subprocess
invocation (launch failure / non-zero exit, or success with captured stdout
bytes). -/
structure Env where
  tdir : String
  run : Cmd → Except ToolErr (List Nat)

/-- Boolean infix test on character lists: does `needle` occur contiguously
inside the second list? -/
def hasInfix (needle : List Char) : List Char → Bool
  | [] => needle.isEmpty
  | c :: t => needle.isPrefixOf (c :: t) || hasInfix needle t

/-- Python's substring containment test `needle in hay` on `str`. -/
def pyIn (needle hay : String) : Bool :=
  hasInfix needle.data hay.data

/-- Modelled from the spec: the process-wide static mime alias table mapping
short aliases to canonical MIME strings (consulted bidirectionally:
alias→MIME for normalization, MIME→alias for suffix derivation).  The
dictionary itself is defined in a module of this repository that is not under
`src/`; only its use in `render_to_img` is.  Kept as an ordered association
list, matching Python dict insertion-order iteration; aliases and MIME
strings are taken from the spec's examples. -/
def mimetypes : List (String × String) :=
  [("html", "text/html"),
   ("xhtml", "application/xhtml+xml"),
   ("jpg", "image/jpeg"),
   ("png", "image/png"),
   ("svg", "image/svg+xml")]

/-- Python `dict.get`: first binding of the key, if any. -/
def dictGet (d : List (String × String)) (k : String) : Option String :=
  (d.find? (fun kv => kv.1 == k)).map (fun kv => kv.2)

/-- Python `a or b` for an optional string `a` (`None` and `""` are falsy). -/
def pyOrS (a : Option String) (b : String) : String :=
  match a with
  | some s => if s = "" then b else s
  | none => b

/-- The UTF-8 content-type meta directive prepended for HTML input
(line 26 of `x.py`). -/
def metaTag : String :=
  "<meta http-equiv=\"Content-Type\" content=\"text/html; charset=utf-8\"/>"

/-- The base-href directive prepended when `asset_base` is given
(line 30 of `x.py`): `<base href="file://{asset_base}/">`. -/
def baseTag (d : String) : String :=
  "<base href=\"file://" ++ d ++ "/\">"

/-- Lines 25-30 of `x.py`: if `'html' in mime`, prepend the meta directive
(a `TypeError` if `input` is `bytes`), then, if `asset_base` is not `None`,
prepend the base-href directive. -/
def preprocess (mime : String) (input : PyVal) (asset_base : Option String) :
    Except RErr PyVal :=
  if pyIn "html" mime then
    match input with
    | PyVal.bytes _ => Except.error RErr.typeError
    | PyVal.str s =>
      match asset_base with
      | some d => Except.ok (PyVal.str (baseTag d ++ (metaTag ++ s)))
      | none => Except.ok (PyVal.str (metaTag ++ s))
  else
    Except.ok input

/-- Lines 32-42 of `x.py`: `m = mimetypes.get(mime) or mime`; `suffix = mime`;
first key whose value equals `m` (if any) overrides `suffix`. -/
def suffix_of (mime : String) : String :=
  let m := pyOrS (dictGet mimetypes mime) mime
  match mimetypes.find? (fun kv => kv.2 == m) with
  | some kv => kv.1
  | none => mime

/-- Lines 44-47 of `x.py`: the Chrome executable path, by `sys.platform`. -/
def chromePath (platform : String) : String :=
  if platform = "darwin" then
    "/Applications/Google Chrome.app/Contents/MacOS/Google Chrome"
  else
    "google-chrome"

/-- `os.path.join` for a directory (no trailing slash) and a relative name. -/
def pjoin (a b : String) : String := a ++ "/" ++ b

/-- The argument list of the headless-Chrome invocation (lines 60-70). -/
def chromeArgs (width height : Nat) (fn : String) : List String :=
  ["--headless", "--disable-gpu", "--no-sandbox", "--screenshot",
   "--window-size=" ++ toString width ++ "," ++ toString height,
   "--default-background-color=00000000", fn]

/-- The headless-Chrome command, run with `cwd` set to the temp dir. -/
def chromeCmd (platform : String) (width height : Nat) (fn tdir : String) :
    Cmd :=
  { exe := chromePath platform,
    args := chromeArgs width height fn,
    cwd := some tdir }

/-- The flatten / alpha-removal arguments (lines 74-76). -/
def flattenArgs : List String :=
  ["-background", "white", "-flatten", "-alpha", "off"]

/-- Lines 72-76 of `x.py`: `moreargs` is empty for `png`, the flatten
arguments otherwise. -/
def moreargs (typ : String) : List String :=
  if typ = "png" then [] else flattenArgs

/-- The argument list of the `convert` invocation (lines 79-88). -/
def convertArgs (tdir typ : String) : List String :=
  [pjoin tdir "screenshot.png", "-trim", "+repage"] ++ moreargs typ
    ++ [typ ++ ":-"]

/-- The `convert` command (no `cwd` keyword; `text=False`, so stdout is
captured as bytes). -/
def convertCmd (tdir typ : String) : Cmd :=
  { exe := "convert", args := convertArgs tdir typ, cwd := none }

/-- The file-open mode chosen at lines 54-56: `'wb'` for `bytes` input,
`'w'` otherwise. -/
def writeMode (v : PyVal) : String :=
  match v with
  | PyVal.bytes _ => "wb"
  | PyVal.str _ => "w"

/-- Embedding of `with tempfile.TemporaryDirectory() as tdir:`: the body's
trace is bracketed by creation and removal of the directory, removal
happening on every exit path (normal or exceptional), as the context
manager guarantees. -/
def withTempDir {α : Type} (tdir : String)
    (body : String → Except RErr α × List Event) :
    Except RErr α × List Event :=
  ((body tdir).1,
   Event.tmpCreate tdir :: (body tdir).2 ++ [Event.tmpRemove tdir])

/-- Embedding of `render_to_img(mime, input, typ, width, height, asset_base)`
(whole of `x.py`): HTML preprocessing, suffix derivation, temp-dir scope,
input-file write, Chrome screenshot, `convert` post-processing; returns the
captured stdout bytes of `convert`.  The second component is the ordered
trace of observable effects. -/
def render_to_img (env : Env) (platform mime : String) (input : PyVal)
    (typ : String) (width height : Nat) (asset_base : Option String) :
    Except RErr (List Nat) × List Event :=
  match preprocess mime input asset_base with
  | Except.error e => (Except.error e, [])
  | Except.ok inp =>
    withTempDir env.tdir (fun tdir =>
      match env.run (chromeCmd platform width height
          (pjoin tdir ("xxx." ++ suffix_of mime)) tdir) with
      | Except.error e =>
        (Except.error (RErr.tool e),
         [Event.fileWrite (pjoin tdir ("xxx." ++ suffix_of mime))
            (writeMode inp) inp,
          Event.run (chromeCmd platform width height
            (pjoin tdir ("xxx." ++ suffix_of mime)) tdir)])
      | Except.ok _ =>
        match env.run (convertCmd tdir typ) with
        | Except.error e =>
          (Except.error (RErr.tool e),
           [Event.fileWrite (pjoin tdir ("xxx." ++ suffix_of mime))
              (writeMode inp) inp,
            Event.run (chromeCmd platform width height
              (pjoin tdir ("xxx." ++ suffix_of mime)) tdir),
            Event.run (convertCmd tdir typ)])
        | Except.ok out =>
          (Except.ok out,
           [Event.fileWrite (pjoin tdir ("xxx." ++ suffix_of mime))
              (writeMode inp) inp,
            Event.run (chromeCmd platform width height
              (pjoin tdir ("xxx." ++ suffix_of mime)) tdir),
            Event.run (convertCmd tdir typ)]))

/-- A sample environment in which both tools succeed. -/
def sampleEnv : Env :=
  { tdir := "/tmp/work", run := fun _ => Except.ok [137, 80, 78, 71] }

/-- A sample environment in which every tool launch fails. -/
def failEnv : Env :=
  { tdir := "/tmp/work", run := fun _ => Except.error ToolErr.launchFailure }

example : suffix_of "html" = "html" := by decide

example : suffix_of "text/html" = "html" := by decide

example : suffix_of "image/gif" = "image/gif" := by decide

example : pyIn "html" "application/xhtml+xml" = true := by decide

/-- Preprocessing never fails on `str` input, and yields a `str`. -/
lemma preprocess_str (mime s : String) (ab : Option String) :
    preprocess mime (PyVal.str s) ab =
      Except.ok (PyVal.str
        (if pyIn "html" mime then
          (match ab with
           | some d => baseTag d ++ (metaTag ++ s)
           | none => metaTag ++ s)
         else s)) := by
  unfold preprocess
  by_cases h : pyIn "html" mime
  · simp [h]
    cases ab <;> simp
  · simp [h]

/-- Preprocessing of `str` input under an HTML mime: the meta directive is
prepended, and the base-href directive is prepended in front of it when the
asset base is given. -/
lemma preprocess_str_html (mime s : String) (ab : Option String)
    (hh : pyIn "html" mime = true) :
    preprocess mime (PyVal.str s) ab =
      Except.ok (PyVal.str
        (match ab with
         | some d => baseTag d ++ (metaTag ++ s)
         | none => metaTag ++ s)) := by
  cases ab <;> simp [preprocess, hh]

/-- Full case analysis of `render_to_img`: the relation between the oracle
outcomes on the two commands and the result/trace pair. -/
lemma render_cases (env : Env) (platform mime : String) (input : PyVal)
    (typ : String) (w h : Nat) (ab : Option String) :
    (∃ e, preprocess mime input ab = Except.error e ∧
      render_to_img env platform mime input typ w h ab =
        (Except.error e, [])) ∨
    (∃ inp, preprocess mime input ab = Except.ok inp ∧
      ((∃ e2, env.run (chromeCmd platform w h
            (pjoin env.tdir ("xxx." ++ suffix_of mime)) env.tdir) =
          Except.error e2 ∧
        render_to_img env platform mime input typ w h ab =
          (Except.error (RErr.tool e2),
           [Event.tmpCreate env.tdir,
            Event.fileWrite (pjoin env.tdir ("xxx." ++ suffix_of mime))
              (writeMode inp) inp,
            Event.run (chromeCmd platform w h
              (pjoin env.tdir ("xxx." ++ suffix_of mime)) env.tdir),
            Event.tmpRemove env.tdir])) ∨
       (∃ o, env.run (chromeCmd platform w h
            (pjoin env.tdir ("xxx." ++ suffix_of mime)) env.tdir) =
          Except.ok o ∧
         ((∃ e3, env.run (convertCmd env.tdir typ) = Except.error e3 ∧
            render_to_img env platform mime input typ w h ab =
              (Except.error (RErr.tool e3),
               [Event.tmpCreate env.tdir,
                Event.fileWrite (pjoin env.tdir ("xxx." ++ suffix_of mime))
                  (writeMode inp) inp,
                Event.run (chromeCmd platform w h
                  (pjoin env.tdir ("xxx." ++ suffix_of mime)) env.tdir),
                Event.run (convertCmd env.tdir typ),
                Event.tmpRemove env.tdir])) ∨
          (∃ out, env.run (convertCmd env.tdir typ) = Except.ok out ∧
            render_to_img env platform mime input typ w h ab =
              (Except.ok out,
               [Event.tmpCreate env.tdir,
                Event.fileWrite (pjoin env.tdir ("xxx." ++ suffix_of mime))
                  (writeMode inp) inp,
                Event.run (chromeCmd platform w h
                  (pjoin env.tdir ("xxx." ++ suffix_of mime)) env.tdir),
                Event.run (convertCmd env.tdir typ),
                Event.tmpRemove env.tdir])))))) := by
  cases hp : preprocess mime input ab with
  | error e =>
    left
    exact ⟨e, rfl, by simp [render_to_img, hp]⟩
  | ok inp =>
    right
    refine ⟨inp, rfl, ?_⟩
    cases hc : env.run (chromeCmd platform w h
        (pjoin env.tdir ("xxx." ++ suffix_of mime)) env.tdir) with
    | error e2 =>
      left
      exact ⟨e2, rfl, by simp [render_to_img, hp, withTempDir, hc]⟩
    | ok o =>
      right
      refine ⟨o, rfl, ?_⟩
      cases hv : env.run (convertCmd env.tdir typ) with
      | error e3 =>
        left
        exact ⟨e3, rfl, by simp [render_to_img, hp, withTempDir, hc, hv]⟩
      | ok out =>
        right
        exact ⟨out, rfl, by simp [render_to_img, hp, withTempDir, hc, hv]⟩

example :
    (render_to_img sampleEnv "linux" "html" (PyVal.str "<p>hi</p>") "png"
      1000 2000 none).1 = Except.ok [137, 80, 78, 71] := rfl

example :
    (render_to_img sampleEnv "linux" "html" (PyVal.bytes [1]) "png"
      1000 2000 none) = (Except.error RErr.typeError, []) := rfl

/-- C2: the derived temp-file suffix equals the alias itself when `mime` is a
known alias; equals the matching alias when `mime` is a full MIME string with
an alias entry; and equals the raw `mime` string when `mime` matches no alias
table entry. -/
theorem suffix_derivation_spec (mime : String) :
    ((∃ v, (mime, v) ∈ mimetypes) → suffix_of mime = mime) ∧
    (∀ k v, (k, v) ∈ mimetypes → mime = v → suffix_of mime = k) ∧
    ((∀ kv ∈ mimetypes, kv.1 ≠ mime ∧ kv.2 ≠ mime) →
      suffix_of mime = mime) := by
  refine ⟨?_, ?_, ?_⟩
  · rintro ⟨v, hv⟩
    simp only [mimetypes, List.mem_cons, List.not_mem_nil, or_false,
      Prod.mk.injEq] at hv
    rcases hv with ⟨h, -⟩ | ⟨h, -⟩ | ⟨h, -⟩ | ⟨h, -⟩ | ⟨h, -⟩ <;>
      subst h <;> decide
  · intro k v hkv he
    simp only [mimetypes, List.mem_cons, List.not_mem_nil, or_false,
      Prod.mk.injEq] at hkv
    rcases hkv with ⟨hk, hv⟩ | ⟨hk, hv⟩ | ⟨hk, hv⟩ | ⟨hk, hv⟩ | ⟨hk, hv⟩ <;>
      subst hk <;> subst hv <;> subst he <;> decide
  · intro hno
    have h1 := hno ("html", "text/html") (by simp [mimetypes])
    have h2 := hno ("xhtml", "application/xhtml+xml") (by simp [mimetypes])
    have h3 := hno ("jpg", "image/jpeg") (by simp [mimetypes])
    have h4 := hno ("png", "image/png") (by simp [mimetypes])
    have h5 := hno ("svg", "image/svg+xml") (by simp [mimetypes])
    simp only [ne_eq] at h1 h2 h3 h4 h5
    have b1 : ("html" == mime) = false := beq_eq_false_iff_ne.mpr h1.1
    have b2 : ("xhtml" == mime) = false := beq_eq_false_iff_ne.mpr h2.1
    have b3 : ("jpg" == mime) = false := beq_eq_false_iff_ne.mpr h3.1
    have b4 : ("png" == mime) = false := beq_eq_false_iff_ne.mpr h4.1
    have b5 : ("svg" == mime) = false := beq_eq_false_iff_ne.mpr h5.1
    have c1 : ("text/html" == mime) = false := beq_eq_false_iff_ne.mpr h1.2
    have c2 : ("application/xhtml+xml" == mime) = false :=
      beq_eq_false_iff_ne.mpr h2.2
    have c3 : ("image/jpeg" == mime) = false := beq_eq_false_iff_ne.mpr h3.2
    have c4 : ("image/png" == mime) = false := beq_eq_false_iff_ne.mpr h4.2
    have c5 : ("image/svg+xml" == mime) = false := beq_eq_false_iff_ne.mpr h5.2
    unfold suffix_of dictGet pyOrS mimetypes
    simp [List.find?, b1, b2, b3, b4, b5, c1, c2, c3, c4, c5]

/-- Witness for C2: a known alias maps to itself, a full MIME string maps to
its alias, and an unmapped string maps to itself. -/
theorem suffix_derivation_spec_witness :
    suffix_of "jpg" = "jpg" ∧ suffix_of "text/html" = "html" ∧
    suffix_of "application/pdf" = "application/pdf" :=
  ⟨(suffix_derivation_spec "jpg").1 ⟨"image/jpeg", by simp [mimetypes]⟩,
   (suffix_derivation_spec "text/html").2.1 "html" "text/html"
     (by simp [mimetypes]) rfl,
   (suffix_derivation_spec "application/pdf").2.2 (by decide)⟩

/-- C3: the `convert` argument list contains the flatten / alpha-removal
arguments `-background white -flatten -alpha off` exactly when the requested
output type is not `"png"`; for `"png"` none of them occurs. -/
theorem convert_flatten_iff_not_png (tdir typ : String) :
    (typ ≠ "png" →
      convertArgs tdir typ =
        [pjoin tdir "screenshot.png", "-trim", "+repage"] ++
          ["-background", "white", "-flatten", "-alpha", "off"] ++
          [typ ++ ":-"]) ∧
    (typ = "png" →
      ∀ a ∈ (["-background", "white", "-flatten", "-alpha", "off"] :
          List String), a ∉ convertArgs tdir typ) := by
  constructor
  · intro hne
    simp [convertArgs, moreargs, flattenArgs, hne]
  · intro hpng a ha hmem
    subst hpng
    have hle : a.length ≤ 11 := by
      simp only [List.mem_cons, List.not_mem_nil, or_false] at ha
      rcases ha with h | h | h | h | h <;> subst h <;> decide
    have hm : moreargs "png" = [] := rfl
    simp only [convertArgs, hm, List.append_nil, List.cons_append,
      List.nil_append, List.mem_cons, List.not_mem_nil, or_false] at hmem
    rcases hmem with h | h | h | h
    · rw [pjoin] at h
      have hlen := congrArg String.length h
      rw [String.length_append, String.length_append] at hlen
      have hs : ("screenshot.png" : String).length = 14 := rfl
      have hsl : ("/" : String).length = 1 := rfl
      omega
    · subst h; exact absurd ha (by decide)
    · subst h; exact absurd ha (by decide)
    · subst h; exact absurd ha (by decide)

/-- Witness for C3: for `"jpg"` the flatten arguments are present; for
`"png"` the `-background` argument is absent. -/
theorem convert_flatten_iff_not_png_witness :
    convertArgs "/t" "jpg" =
      [pjoin "/t" "screenshot.png", "-trim", "+repage"] ++
        ["-background", "white", "-flatten", "-alpha", "off"] ++
        ["jpg" ++ ":-"] ∧
    "-background" ∉ convertArgs "/t" "png" :=
  ⟨(convert_flatten_iff_not_png "/t" "jpg").1 (by decide),
   (convert_flatten_iff_not_png "/t" "png").2 rfl "-background" (by decide)⟩

/-- C8: the headless-browser executable path is the Google Chrome application
bundle path on `darwin` and the generic name `google-chrome` on every other
platform, and that path is the executable of the Chrome command built by the
renderer. -/
theorem chrome_path_by_platform :
    chromePath "darwin" =
      "/Applications/Google Chrome.app/Contents/MacOS/Google Chrome" ∧
    (∀ p, p ≠ "darwin" → chromePath p = "google-chrome") ∧
    (∀ platform w h fn tdir,
      (chromeCmd platform w h fn tdir).exe = chromePath platform) := by
  refine ⟨rfl, ?_, fun _ _ _ _ _ => rfl⟩
  intro p hp
  simp [chromePath, hp]

/-- Witness for C8: a non-darwin platform selects the generic name. -/
theorem chrome_path_by_platform_witness :
    chromePath "linux" = "google-chrome" :=
  chrome_path_by_platform.2.1 "linux" (by decide)

/-- C10: the HTML-specific pre-processing is applied exactly when `"html"`
occurs as a substring of the mime argument: any such mime (e.g. the full MIME
`application/xhtml+xml`) gets the directives prepended, and any mime not
containing `"html"` passes the input through unchanged, regardless of the
alias table. -/
theorem html_preprocessing_iff_substring (mime s : String)
    (ab : Option String) (input : PyVal) :
    (pyIn "html" mime = true →
      preprocess mime (PyVal.str s) ab =
        Except.ok (PyVal.str
          ((match ab with
            | some d => "<base href=\"file://" ++ d ++ "/\">"
            | none => "") ++
           ("<meta http-equiv=\"Content-Type\" content=\"text/html; charset=utf-8\"/>"
             ++ s)))) ∧
    (pyIn "html" mime = false →
      preprocess mime input ab = Except.ok input) := by
  constructor
  · intro hh
    rw [preprocess_str]
    simp only [hh, if_true]
    cases ab <;> simp [baseTag, metaTag]
  · intro hh
    simp [preprocess, hh]

/-- Witness for C10: `application/xhtml+xml` receives the meta directive;
`image/png` input is passed through unchanged. -/
theorem html_preprocessing_iff_substring_witness :
    preprocess "application/xhtml+xml" (PyVal.str "x") none =
      Except.ok (PyVal.str
        ("" ++
         ("<meta http-equiv=\"Content-Type\" content=\"text/html; charset=utf-8\"/>"
           ++ "x"))) ∧
    preprocess "image/png" (PyVal.bytes [7]) (some "/a") =
      Except.ok (PyVal.bytes [7]) :=
  ⟨(html_preprocessing_iff_substring "application/xhtml+xml" "x" none
      (PyVal.str "x")).1 (by decide),
   (html_preprocessing_iff_substring "image/png" "x" (some "/a")
      (PyVal.bytes [7])).2 (by decide)⟩

/-- Characterization of any file-write event in the trace: its content is the
preprocessed input, its mode derives from that content, and its path is the
suffix-named file inside the temporary directory. -/
lemma write_event_content (env : Env) (platform mime : String)
    (input : PyVal) (typ : String) (w h : Nat) (ab : Option String)
    (fn md : String) (c : PyVal)
    (hmem : Event.fileWrite fn md c ∈
      (render_to_img env platform mime input typ w h ab).2) :
    preprocess mime input ab = Except.ok c ∧ md = writeMode c ∧
    fn = pjoin env.tdir ("xxx." ++ suffix_of mime) := by
  rcases render_cases env platform mime input typ w h ab with
    ⟨e, hp, hr⟩ | ⟨inp, hp, hB | ⟨o, hc, hC | hD⟩⟩
  · rw [hr] at hmem
    simp at hmem
  · rcases hB with ⟨e2, _, hr⟩
    rw [hr] at hmem
    simp only [List.mem_cons, List.not_mem_nil, or_false] at hmem
    rcases hmem with h | h | h | h
    · cases h
    · obtain ⟨h1, h2, h3⟩ := (Event.fileWrite.injEq _ _ _ _ _ _).mp h
      subst h3
      exact ⟨hp, h2, h1⟩
    · cases h
    · cases h
  · rcases hC with ⟨e3, _, hr⟩
    rw [hr] at hmem
    simp only [List.mem_cons, List.not_mem_nil, or_false] at hmem
    rcases hmem with h | h | h | h | h
    · cases h
    · obtain ⟨h1, h2, h3⟩ := (Event.fileWrite.injEq _ _ _ _ _ _).mp h
      subst h3
      exact ⟨hp, h2, h1⟩
    · cases h
    · cases h
    · cases h
  · rcases hD with ⟨out, _, hr⟩
    rw [hr] at hmem
    simp only [List.mem_cons, List.not_mem_nil, or_false] at hmem
    rcases hmem with h | h | h | h | h
    · cases h
    · obtain ⟨h1, h2, h3⟩ := (Event.fileWrite.injEq _ _ _ _ _ _).mp h
      subst h3
      exact ⟨hp, h2, h1⟩
    · cases h
    · cases h
    · cases h

/-- C1: whenever the mime indicates HTML, the content written to the
temporary input file is the UTF-8 content-type meta directive followed by the
original input, and when `asset_base` is supplied the base-href directive
referencing it as a file-scheme URL comes before the meta directive. -/
theorem html_written_content_meta_and_base (env : Env)
    (platform mime s typ : String) (w h : Nat) (ab : Option String)
    (hh : pyIn "html" mime = true) (fn md : String) (c : PyVal)
    (hmem : Event.fileWrite fn md c ∈
      (render_to_img env platform mime (PyVal.str s) typ w h ab).2) :
    c = PyVal.str
      ((match ab with
        | some d => "<base href=\"file://" ++ d ++ "/\">"
        | none => "") ++
       ("<meta http-equiv=\"Content-Type\" content=\"text/html; charset=utf-8\"/>"
         ++ s)) := by
  have hw := write_event_content env platform mime (PyVal.str s) typ w h ab
    fn md c hmem
  cases ab with
  | none =>
    rw [preprocess_str_html mime s none hh] at hw
    have hc := Except.ok.inj hw.1
    subst hc
    simp [metaTag]
  | some d =>
    rw [preprocess_str_html mime s (some d) hh] at hw
    have hc := Except.ok.inj hw.1
    subst hc
    simp [baseTag, metaTag]

/-- Witness for C1: concrete render of HTML input with an asset base. -/
theorem html_written_content_meta_and_base_witness :
    PyVal.str (baseTag "/assets" ++ (metaTag ++ "hi")) =
      PyVal.str
        ((match (some "/assets" : Option String) with
          | some d => "<base href=\"file://" ++ d ++ "/\">"
          | none => "") ++
         ("<meta http-equiv=\"Content-Type\" content=\"text/html; charset=utf-8\"/>"
           ++ "hi")) :=
  html_written_content_meta_and_base sampleEnv "linux" "html" "hi" "png"
    1000 2000 (some "/assets") (by decide) "/tmp/work/xxx.html" "w"
    (PyVal.str (baseTag "/assets" ++ (metaTag ++ "hi"))) (by decide)

/-- C4: on every exit path (normal return or propagated failure), once the
temporary directory has been created it is also removed, and its removal is
the last observable effect of the call. -/
theorem tempdir_removed_on_every_exit (env : Env) (platform mime : String)
    (input : PyVal) (typ : String) (w h : Nat) (ab : Option String)
    (d : String)
    (hcr : Event.tmpCreate d ∈
      (render_to_img env platform mime input typ w h ab).2) :
    Event.tmpRemove d ∈
      (render_to_img env platform mime input typ w h ab).2 ∧
    (render_to_img env platform mime input typ w h ab).2.getLast? =
      some (Event.tmpRemove d) := by
  rcases render_cases env platform mime input typ w h ab with
    ⟨e, hp, hr⟩ | ⟨inp, hp, hB | ⟨o, hc, hC | hD⟩⟩
  · rw [hr] at hcr
    simp at hcr
  · rcases hB with ⟨e2, _, hr⟩
    rw [hr] at hcr ⊢
    simp only [List.mem_cons, List.not_mem_nil, or_false] at hcr
    rcases hcr with h | h | h | h
    · have hd := (Event.tmpCreate.injEq _ _).mp h
      subst hd
      exact ⟨by simp, rfl⟩
    · cases h
    · cases h
    · cases h
  · rcases hC with ⟨e3, _, hr⟩
    rw [hr] at hcr ⊢
    simp only [List.mem_cons, List.not_mem_nil, or_false] at hcr
    rcases hcr with h | h | h | h | h
    · have hd := (Event.tmpCreate.injEq _ _).mp h
      subst hd
      exact ⟨by simp, rfl⟩
    · cases h
    · cases h
    · cases h
    · cases h
  · rcases hD with ⟨out, _, hr⟩
    rw [hr] at hcr ⊢
    simp only [List.mem_cons, List.not_mem_nil, or_false] at hcr
    rcases hcr with h | h | h | h | h
    · have hd := (Event.tmpCreate.injEq _ _).mp h
      subst hd
      exact ⟨by simp, rfl⟩
    · cases h
    · cases h
    · cases h
    · cases h

/-- Witness for C4: on a concrete successful render the temp directory is
removed, and removal is the final event. -/
theorem tempdir_removed_on_every_exit_witness :
    Event.tmpRemove "/tmp/work" ∈
      (render_to_img sampleEnv "linux" "html" (PyVal.str "hi") "png"
        1000 2000 none).2 ∧
    (render_to_img sampleEnv "linux" "html" (PyVal.str "hi") "png"
      1000 2000 none).2.getLast? = some (Event.tmpRemove "/tmp/work") :=
  tempdir_removed_on_every_exit sampleEnv "linux" "html" (PyVal.str "hi")
    "png" 1000 2000 none "/tmp/work" (by decide)

/-- C5: the headless browser is invoked with exactly the flags `--headless
--disable-gpu --no-sandbox --screenshot --window-size=<w>,<h>
--default-background-color=00000000` followed by the input-file path, with
its working directory set to the temporary directory. -/
theorem chrome_invocation_exact (env : Env) (platform mime s typ : String)
    (w h : Nat) (ab : Option String) :
    Event.run
      { exe := chromePath platform,
        args := ["--headless", "--disable-gpu", "--no-sandbox",
          "--screenshot",
          "--window-size=" ++ toString w ++ "," ++ toString h,
          "--default-background-color=00000000",
          pjoin env.tdir ("xxx." ++ suffix_of mime)],
        cwd := some env.tdir } ∈
      (render_to_img env platform mime (PyVal.str s) typ w h ab).2 := by
  show Event.run (chromeCmd platform w h
      (pjoin env.tdir ("xxx." ++ suffix_of mime)) env.tdir) ∈
    (render_to_img env platform mime (PyVal.str s) typ w h ab).2
  rcases render_cases env platform mime (PyVal.str s) typ w h ab with
    ⟨e, hp, hr⟩ | ⟨inp, hp, hB | ⟨o, hc, hC | hD⟩⟩
  · rw [preprocess_str] at hp
    cases hp
  · rcases hB with ⟨e2, _, hr⟩
    rw [hr]
    simp
  · rcases hC with ⟨e3, _, hr⟩
    rw [hr]
    simp
  · rcases hD with ⟨out, _, hr⟩
    rw [hr]
    simp

/-- C6: the image-conversion tool is invoked with executable `convert` on
`screenshot.png` inside the temporary directory, with arguments `-trim
+repage`, then the optional flatten arguments, then `<typ>:-`; and on success
the function result is exactly the captured stdout bytes of that
invocation. -/
theorem convert_invocation_and_output (env : Env)
    (platform mime s typ : String) (w h : Nat) (ab : Option String)
    (o out : List Nat)
    (hc : env.run (chromeCmd platform w h
        (pjoin env.tdir ("xxx." ++ suffix_of mime)) env.tdir) =
      Except.ok o)
    (hv : env.run (convertCmd env.tdir typ) = Except.ok out) :
    (render_to_img env platform mime (PyVal.str s) typ w h ab).1 =
      Except.ok out ∧
    Event.run (convertCmd env.tdir typ) ∈
      (render_to_img env platform mime (PyVal.str s) typ w h ab).2 ∧
    (convertCmd env.tdir typ).exe = "convert" ∧
    (convertCmd env.tdir typ).args =
      [env.tdir ++ "/" ++ "screenshot.png", "-trim", "+repage"] ++
        moreargs typ ++ [typ ++ ":-"] := by
  rcases render_cases env platform mime (PyVal.str s) typ w h ab with
    ⟨e, hp, hr⟩ | ⟨inp, hp, hB | ⟨o2, hc2, hC | hD⟩⟩
  · rw [preprocess_str] at hp
    cases hp
  · rcases hB with ⟨e2, he2, hr⟩
    rw [hc] at he2
    cases he2
  · rcases hC with ⟨e3, he3, hr⟩
    rw [hv] at he3
    cases he3
  · rcases hD with ⟨out2, hout, hr⟩
    rw [hv] at hout
    have ho2 := Except.ok.inj hout
    subst ho2
    rw [hr]
    exact ⟨rfl, by simp, rfl, rfl⟩

/-- Witness for C6: a concrete successful render returns the converter's
stdout bytes. -/
theorem convert_invocation_and_output_witness :
    (render_to_img sampleEnv "linux" "html" (PyVal.str "hi") "jpg"
      800 600 none).1 = Except.ok [137, 80, 78, 71] ∧
    Event.run (convertCmd "/tmp/work" "jpg") ∈
      (render_to_img sampleEnv "linux" "html" (PyVal.str "hi") "jpg"
        800 600 none).2 ∧
    (convertCmd "/tmp/work" "jpg").exe = "convert" ∧
    (convertCmd "/tmp/work" "jpg").args =
      ["/tmp/work" ++ "/" ++ "screenshot.png", "-trim", "+repage"] ++
        moreargs "jpg" ++ ["jpg" ++ ":-"] :=
  convert_invocation_and_output sampleEnv "linux" "html" "hi" "jpg" 800 600
    none [137, 80, 78, 71] [137, 80, 78, 71] rfl rfl

/-- C7: launch failure or non-zero exit of either external tool is
propagated as a hard error, and bytes are returned only when both tools
succeeded, in which case they are exactly the converter's stdout. -/
theorem tool_failure_propagates (env : Env) (platform mime s typ : String)
    (w h : Nat) (ab : Option String) :
    (∀ out, (render_to_img env platform mime (PyVal.str s) typ w h ab).1 =
        Except.ok out →
      (∃ o, env.run (chromeCmd platform w h
          (pjoin env.tdir ("xxx." ++ suffix_of mime)) env.tdir) =
        Except.ok o) ∧
      env.run (convertCmd env.tdir typ) = Except.ok out) ∧
    (∀ e, env.run (chromeCmd platform w h
        (pjoin env.tdir ("xxx." ++ suffix_of mime)) env.tdir) =
        Except.error e →
      (render_to_img env platform mime (PyVal.str s) typ w h ab).1 =
        Except.error (RErr.tool e)) ∧
    (∀ e o, env.run (chromeCmd platform w h
        (pjoin env.tdir ("xxx." ++ suffix_of mime)) env.tdir) =
        Except.ok o →
      env.run (convertCmd env.tdir typ) = Except.error e →
      (render_to_img env platform mime (PyVal.str s) typ w h ab).1 =
        Except.error (RErr.tool e)) := by
  rcases render_cases env platform mime (PyVal.str s) typ w h ab with
    ⟨e, hp, hr⟩ | ⟨inp, hp, hB | ⟨o, hc, hC | hD⟩⟩
  · rw [preprocess_str] at hp
    cases hp
  · rcases hB with ⟨e2, he2, hr⟩
    refine ⟨?_, ?_, ?_⟩
    · intro out hout
      rw [hr] at hout
      simp at hout
    · intro e he
      rw [he2] at he
      have h22 := Except.error.inj he
      subst h22
      rw [hr]
    · intro e o ho
      rw [he2] at ho
      cases ho
  · rcases hC with ⟨e3, he3, hr⟩
    refine ⟨?_, ?_, ?_⟩
    · intro out hout
      rw [hr] at hout
      simp at hout
    · intro e he
      rw [hc] at he
      cases he
    · intro e o2 ho hv
      rw [he3] at hv
      have h33 := Except.error.inj hv
      subst h33
      rw [hr]
  · rcases hD with ⟨out2, hout2, hr⟩
    refine ⟨?_, ?_, ?_⟩
    · intro out hout
      rw [hr] at hout
      simp at hout
      subst hout
      exact ⟨⟨o, hc⟩, hout2⟩
    · intro e he
      rw [hc] at he
      cases he
    · intro e o2 ho hv
      rw [hout2] at hv
      cases hv

/-- Witness for C7: when the browser launch fails, the call surfaces the
tool error. -/
theorem tool_failure_propagates_witness :
    (render_to_img failEnv "linux" "html" (PyVal.str "x") "png"
      1000 2000 none).1 =
      Except.error (RErr.tool ToolErr.launchFailure) :=
  (tool_failure_propagates failEnv "linux" "html" "x" "png"
    1000 2000 none).2.1 ToolErr.launchFailure rfl

/-- C9: for `bytes` input with an HTML mime the call raises a type error
before creating the temporary directory or invoking any tool (empty trace),
and the binary-write mode `wb` is only ever used for `bytes` input whose
mime does not contain `html`. -/
theorem bytes_html_type_error (env : Env) (platform typ : String)
    (w h : Nat) (ab : Option String) :
    (∀ mime b, pyIn "html" mime = true →
      render_to_img env platform mime (PyVal.bytes b) typ w h ab =
        (Except.error RErr.typeError, [])) ∧
    (∀ mime input fn c,
      Event.fileWrite fn "wb" c ∈
        (render_to_img env platform mime input typ w h ab).2 →
      (∃ b, input = PyVal.bytes b) ∧ pyIn "html" mime = false) := by
  constructor
  · intro mime b hh
    simp [render_to_img, preprocess, hh]
  · intro mime input fn c hmem
    have hw := write_event_content env platform mime input typ w h ab
      fn "wb" c hmem
    cases input with
    | str s =>
      rw [preprocess_str] at hw
      have hc := Except.ok.inj hw.1
      have hm := hw.2.1
      rw [← hc] at hm
      simp [writeMode] at hm
    | bytes b =>
      cases hhtml : pyIn "html" mime with
      | true =>
        have h1 := hw.1
        simp [preprocess, hhtml] at h1
      | false =>
        exact ⟨⟨b, rfl⟩, rfl⟩

/-- Witness for C9: a concrete bytes-with-html call fails with the type
error and an empty effect trace. -/
theorem bytes_html_type_error_witness :
    render_to_img sampleEnv "linux" "html" (PyVal.bytes [104]) "png"
      1000 2000 none = (Except.error RErr.typeError, []) :=
  (bytes_html_type_error sampleEnv "linux" "png" 1000 2000 none).1
    "html" [104] (by decide)

end XpMd2Html
